import Mathlib

/-!
Verification of the repository static-analysis pipeline
(`codebase_analyser.py`): a shallow embedding of the data model and the
operations of `CodebaseAnalyzer`, followed by theorems settling the
specification claims.

File content is abstracted as the results of the primitive text
operations the analyzer performs on it (newline count, per-regex match
lists, parse-tree walk results); file-system traversal is a list of
entries given in traversal order.
-/

set_option maxRecDepth 4000

/-! ## Character-level string helpers (Python string/path semantics) -/

/-- Does the second list start with the first one? (`str.startswith`). -/
def leadsChars : List Char → List Char → Bool
  | [], _ => true
  | _ :: _, [] => false
  | a :: as, b :: bs => a == b && leadsChars as bs

/-- Substring test: does `hay` contain `pat`? (Python `pat in hay`). -/
def containsChars : List Char → List Char → Bool
  | [], pat => pat.isEmpty
  | c :: rest, pat => leadsChars pat (c :: rest) || containsChars rest pat

def strContains (hay pat : String) : Bool := containsChars hay.toList pat.toList

def strStarts (s pat : String) : Bool := leadsChars pat.toList s.toList

def strLower (s : String) : String := String.mk (s.toList.map Char.toLower)

/-- Python `str.strip()` whitespace test (ASCII whitespace). -/
def isPySpace (c : Char) : Bool :=
  c == ' ' || c == '\t' || c == '\n' || c == '\r'

/-- Python `str.strip()`. -/
def pyStrip (s : String) : String :=
  String.mk (((s.toList.dropWhile isPySpace).reverse.dropWhile isPySpace).reverse)

/-- Python `s.split(sep)[0]`: the part of `s` before the first occurrence of
`sep` (the whole of `s` when `sep` does not occur). -/
def splitHeadChars (sep : List Char) : List Char → List Char
  | [] => []
  | c :: rest =>
    if leadsChars sep (c :: rest) then [] else c :: splitHeadChars sep rest

def splitHead (s sep : String) : String :=
  String.mk (splitHeadChars sep.toList s.toList)

/-- The last `/`-separated component of a path string (`PurePath.name`). -/
def lastComp (s : String) : String :=
  String.mk ((s.toList.reverse.takeWhile (fun c => c != '/')).reverse)

/-- Python `PurePath.suffix`: extension of the final component, from the last dot
provided it is neither the first nor the last character. -/
def pySuffix (nm : String) : String :=
  let rev := nm.toList.reverse
  let k := rev.findIdx (fun c => c == '.')
  if k < rev.length && 0 < k && k + 1 < rev.length then
    String.mk ((rev.take (k + 1)).reverse)
  else ""

/-- Python `PurePath.stem`: final component without its suffix. -/
def pathStem (p : String) : String :=
  let nm := lastComp p
  String.mk (nm.toList.take (nm.toList.length - (pySuffix nm).toList.length))

/-- Join with a separator (Python `str.join`). -/
def joinWith (sep : String) : List String → String
  | [] => ""
  | [x] => x
  | x :: y :: rest => x ++ sep ++ joinWith sep (y :: rest)

/-- Python `str.replace(pat, sub)` for non-empty `pat`, fuelled by the
length of the subject. -/
def replaceCharsFuel (pat sub : List Char) : Nat → List Char → List Char
  | 0, s => s
  | _ + 1, [] => []
  | fuel + 1, c :: rest =>
    if leadsChars pat (c :: rest) && !pat.isEmpty then
      sub ++ replaceCharsFuel pat sub fuel ((c :: rest).drop pat.length)
    else
      c :: replaceCharsFuel pat sub fuel rest

def replaceAllStr (s pat sub : String) : String :=
  String.mk (replaceCharsFuel pat.toList sub.toList s.toList.length s.toList)

/-- Glob matching for `*`-only patterns, on the split segments. -/
def findDropChars (seg : List Char) : List Char → Option (List Char)
  | [] => if seg.isEmpty then some [] else none
  | c :: rest =>
    if leadsChars seg (c :: rest) then some ((c :: rest).drop seg.length)
    else findDropChars seg rest

def endsChars (cs seg : List Char) : Bool :=
  leadsChars seg (cs.drop (cs.length - seg.length))

def globTail : List (List Char) → List Char → Bool
  | [], _ => false
  | [seg], cs => endsChars cs seg
  | seg :: seg2 :: rest, cs =>
    match findDropChars seg cs with
    | some cs2 => globTail (seg2 :: rest) cs2
    | none => false

def globMatchChars (segs : List (List Char)) (cs : List Char) : Bool :=
  match segs with
  | [] => cs.isEmpty
  | [seg] => cs == seg
  | seg0 :: seg1 :: rest =>
    leadsChars seg0 cs && globTail (seg1 :: rest) (cs.drop seg0.length)

/-- Split a glob pattern on `*` into its literal segments. -/
def globSegs (pat : List Char) : List (List Char) :=
  match pat with
  | [] => [[]]
  | c :: rest =>
    let tail := globSegs rest
    if c == '*' then [] :: tail
    else
      match tail with
      | [] => [[c]]
      | seg :: segs => (c :: seg) :: segs

def globMatch (pat nm : String) : Bool :=
  globMatchChars (globSegs pat.toList) nm.toList

/-- Format a natural number with thousands separators (Python `{:,}`). -/
def chunk3 : List Char → List (List Char)
  | [] => []
  | [a] => [[a]]
  | [a, b] => [[a, b]]
  | a :: b :: c :: rest => [a, b, c] :: chunk3 rest

def commaFormat (n : Nat) : String :=
  joinWith "," (((chunk3 (toString n).toList.reverse).map List.reverse).reverse.map String.mk)

/-! ## Data model

The Content structure abstracts the text of one file as the results of the primitive
operations the analyzer performs on it: the newline count, the list of
`re.findall` match counts for the fixed complexity-pattern battery, the
outcome of the Python parse-tree walk (`none` = `ast.parse` raised), the
regex extraction lists for JavaScript-family files, the key-pattern and
framework regex matches, the text lines, and the parsed JSON dependency
maps for a manifest.  -/

structure PyInfo where
  imports : List String
  classes : List String
  functions : List String
  deriving Repr, DecidableEq

structure Content where
  newlines : Nat
  complexMatches : List Nat
  pyParse : Option PyInfo
  jsImports : List String
  jsExports : List String
  jsFunctions : List String
  apiMatches : List String
  dbMatches : List String
  reactMatches : List String
  frameworks : List String
  textLines : List String
  jsonDeps : Option (List (String × String) × List (String × String))
  deriving Repr, DecidableEq

/-- One filesystem entry, in `rglob` traversal order: repo-relative path
components, whether it is a regular file, whether reading it succeeds,
its size and mtime, and the abstraction of its text. -/
structure FSEntry where
  relPath : List String
  isFile : Bool
  readOk : Bool
  size : Nat
  mtime : String
  content : Content
  deriving Repr, DecidableEq

/-- The repository: root path string, `repo_path.name`, and the entries
yielded by `repo_path.rglob` in traversal order. -/
structure FS where
  root : String
  repoName : String
  entries : List FSEntry
  deriving Repr, DecidableEq

def relStr (e : FSEntry) : String := joinWith "/" e.relPath

def pathStr (root : String) (e : FSEntry) : String := root ++ "/" ++ relStr e

def entryName (e : FSEntry) : String := lastComp (relStr e)

/-- The `FileInfo` dataclass: information about a single file. -/
structure FileInfo where
  path : String
  size : Nat
  lines : Nat
  file_type : String
  language : String
  imports : List String
  classes : List String
  functions : List String
  exports : List String
  key_patterns : List String
  complexity_score : Nat
  last_modified : String
  deriving Repr, DecidableEq

/-- The `ProjectStructure` dataclass: overall project structure and metadata.
Python dicts are association lists in insertion order. -/
structure ProjectStructure where
  name : String
  root_path : String
  total_files : Nat
  total_lines : Nat
  languages : List (String × Nat)
  frameworks : List String
  dependencies : List (String × String)
  entry_points : List String
  config_files : List String
  documentation : List String
  deriving Repr, DecidableEq

structure ApiEndpoint where
  endpoint : String
  file : String
  language : String
  deriving Repr, DecidableEq

structure DbModel where
  model : String
  file : String
  language : String
  deriving Repr, DecidableEq

structure UiComponent where
  component : String
  file : String
  language : String
  deriving Repr, DecidableEq

structure KeyComponent where
  name : String
  path : String
  type : String
  complexity : Nat
  lines : Nat
  classes : List String
  functions : List String
  key_patterns : List String
  deriving Repr, DecidableEq

structure TechnicalStack where
  languages : List (String × Nat)
  frameworks : List String
  dependencies : List (String × String)
  deriving Repr, DecidableEq

/-- The `ResumableContext` dataclass: context that can be saved and restored. -/
structure ResumableContext where
  project_overview : String
  technical_stack : TechnicalStack
  architecture_patterns : List String
  key_components : List KeyComponent
  api_endpoints : List ApiEndpoint
  database_models : List DbModel
  ui_components : List UiComponent
  external_services : List String
  critical_files : List String
  analysis_timestamp : String
  progress_markers : List (String × Bool)
  deriving Repr, DecidableEq

/-! ## Analyzer configuration tables (`CodebaseAnalyzer.__init__`) -/

/-- Table `self.code_extensions`: static extension → language table. -/
def code_extensions : List (String × String) :=
  [(".py", "python"), (".js", "javascript"), (".ts", "typescript"),
   (".jsx", "react"), (".tsx", "react"), (".vue", "vue"),
   (".java", "java"), (".cpp", "cpp"), (".c", "c"), (".cs", "csharp"),
   (".go", "go"), (".rs", "rust"), (".php", "php"), (".rb", "ruby"),
   (".swift", "swift"), (".kt", "kotlin"), (".html", "html"),
   (".css", "css"), (".scss", "scss"), (".sql", "sql")]

/-- Table `self.ignore_patterns` (a Python set; the loop in
`should_ignore_path` is order-insensitive). -/
def ignore_patterns : List String :=
  ["node_modules", ".git", "__pycache__", ".venv", "venv",
   "dist", "build", ".next", ".nuxt", "target", "bin",
   "obj", ".DS_Store", "*.pyc", "*.class", "*.o"]

/-! ## Per-file analysis -/

/-- Model of `should_ignore_path`: for each ignore pattern, skip when the pattern
occurs in the path string or the base name starts with a dot. -/
def should_ignore_path (path_str nm : String) : Bool :=
  ignore_patterns.any (fun pat => strContains path_str pat || strStarts nm ".")

/-- Model of `detect_language`: lower-cased extension looked up in the static
table, falling back to `"text"`. -/
def detect_language (suffix : String) : String :=
  match code_extensions.find? (fun p => p.1 == strLower suffix) with
  | some p => p.2
  | none => "text"

/-- Model of `extract_python_info`: the parse-tree walk collects imports, classes
and functions; an `ast.parse` exception leaves all three lists empty. -/
def extract_python_info (c : Content) : List String × List String × List String :=
  match c.pyParse with
  | some info => (info.imports, info.classes, info.functions)
  | none => ([], [], [])

/-- Model of `extract_javascript_info`: regex extraction returning
(imports, exports, functions) in that order. -/
def extract_javascript_info (c : Content) : List String × List String × List String :=
  (c.jsImports, c.jsExports, c.jsFunctions)

/-- Model of `calculate_complexity_score`: base `min(lines // 10, 50)`, plus two
points per match of the fixed complexity-pattern battery, capped at 100. -/
def calculate_complexity_score (c : Content) : Nat :=
  let lines := c.newlines + 1
  let score := min (lines / 10) 50
  let score := c.complexMatches.foldl (fun s m => s + m * 2) score
  min score 100

/-- Model of `extract_key_patterns`: API-endpoint, then DB-model, then (for the
JS/TS/React family only) React-component matches, each prefixed with its
category tag. -/
def extract_key_patterns (c : Content) (language : String) : List String :=
  (c.apiMatches.map (fun m => "API_ENDPOINT: " ++ m)) ++
  (c.dbMatches.map (fun m => "DB_MODEL: " ++ m)) ++
  (if language == "javascript" || language == "typescript" || language == "react" then
    c.reactMatches.map (fun m => "REACT_COMPONENT: " ++ m)
  else [])

/-- The language-dispatched extraction step inside `analyze_file`. -/
def extract_for (c : Content) (language : String) : List String × List String × List String :=
  if language == "python" then extract_python_info c
  else if language == "javascript" || language == "typescript" || language == "react" then
    extract_javascript_info c
  else ([], [], [])

/-- Model of `analyze_file`: skip ignored paths and non-regular files; an I/O
failure while reading is caught and yields no record; otherwise build
the `FileInfo`, truncating each list. -/
def analyze_file (root : String) (e : FSEntry) : Option FileInfo :=
  if should_ignore_path (pathStr root e) (entryName e) || !e.isFile then none
  else if !e.readOk then none
  else
    let language := detect_language (pySuffix (entryName e))
    let ext := extract_for e.content language
    some {
      path := relStr e,
      size := e.size,
      lines := e.content.newlines + 1,
      file_type := pySuffix (entryName e),
      language := language,
      imports := ext.1.take 20,
      classes := ext.2.1.take 20,
      functions := ext.2.2.take 20,
      exports := ext.2.2.take 20,
      key_patterns := (extract_key_patterns e.content language).take 10,
      complexity_score := calculate_complexity_score e.content,
      last_modified := e.mtime }

/-! ## Project-level probes -/

/-- Model of `find_entry_points`: fixed candidate names checked for existence at
the repository root. -/
def find_entry_points (fs : FS) : List String :=
  ["main.py", "app.py", "index.js", "server.js", "main.js",
   "index.ts", "main.ts", "App.js", "App.tsx", "index.html"].filter
    (fun nm => fs.entries.any (fun e => e.relPath == [nm]))

/-- The `find_config_files` glob catalog. -/
def config_patterns : List String :=
  ["package.json", "requirements.txt", "Pipfile", "pom.xml",
   "build.gradle", "Cargo.toml", "composer.json", "setup.py",
   ".env*", "config.*", "settings.*", "*.config.*", "docker*",
   "webpack.config.*", "vite.config.*", "next.config.*"]

/-- Model of `find_config_files`: for each pattern, every matching entry not
rejected by the path filter, in pattern-major order. -/
def find_config_files (fs : FS) : List String :=
  config_patterns.foldl (fun acc pat =>
    fs.entries.foldl (fun acc2 e =>
      if globMatch pat (entryName e) &&
         !(should_ignore_path (pathStr fs.root e) (entryName e)) then
        acc2 ++ [relStr e]
      else acc2) acc) []

/-- Python dict assignment `d[k] = v`: update in place or append. -/
def dictSet (d : List (String × String)) (k v : String) : List (String × String) :=
  if d.any (fun p => p.1 == k) then
    d.map (fun p => if p.1 == k then (k, v) else p)
  else d ++ [(k, v)]

/-- One `requirements.txt` line: strip, skip blanks and `#` comments,
peel `==`/`>=`/`<=` constraints to the bare name. -/
def requirements_entry (line : String) : Option (String × String) :=
  let l := pyStrip line
  if l != "" && !(strStarts l "#") then
    some ("pip:" ++ splitHead (splitHead (splitHead l "==") ">=") "<=", l)
  else none

/-- Model of `extract_dependencies`: merge `package.json` runtime and dev
dependency maps under the `npm:` prefix, then fold the non-blank,
non-comment `requirements.txt` lines under the `pip:` prefix; a missing
or unreadable manifest contributes nothing. -/
def extract_dependencies (fs : FS) : List (String × String) :=
  let d0 : List (String × String) := []
  let d1 :=
    match fs.entries.find? (fun e => e.relPath == ["package.json"]) with
    | some e =>
      if e.isFile && e.readOk then
        match e.content.jsonDeps with
        | some (deps, devDeps) =>
          let merged := devDeps.foldl (fun acc p => dictSet acc p.1 p.2)
            (deps.foldl (fun acc p => dictSet acc p.1 p.2) [])
          merged.foldl (fun acc p => dictSet acc ("npm:" ++ p.1) p.2) d0
        | none => d0
      else d0
    | none => d0
  match fs.entries.find? (fun e => e.relPath == ["requirements.txt"]) with
  | some e =>
    if e.isFile && e.readOk then
      e.content.textLines.foldl (fun acc line =>
        match requirements_entry line with
        | some (k, v) => dictSet acc k v
        | none => acc) d1
    else d1
  | none => d1

/-! ## Sorting and aggregation helpers -/

/-- Stable insertion for a descending sort by key (Python
`sorted(key=..., reverse=True)` keeps ties in original order). -/
def insertByGe (f : α → Nat) (x : α) : List α → List α
  | [] => [x]
  | y :: ys => if f y ≤ f x then x :: y :: ys else y :: insertByGe f x ys

/-- Stable descending sort by key. -/
def sortByDesc (f : α → Nat) (l : List α) : List α :=
  l.foldr (insertByGe f) []

/-- Python `languages[lang] = languages.get(lang, 0) + 1` on an
insertion-ordered dict. -/
def bumpCount : List (String × Nat) → String → List (String × Nat)
  | [], k => [(k, 1)]
  | (k1, v) :: rest, k =>
    if k1 == k then (k1, v + 1) :: rest else (k1, v) :: bumpCount rest k

/-- Deterministic model of `set.add` (insertion-ordered, duplicate-free). -/
def setAdd (s : List String) (x : String) : List String :=
  if x ∈ s then s else s ++ [x]

/-! ## Context synthesis (`generate_project_overview`,
`create_resumable_context`) -/

/-- Model of `generate_project_overview`: the rendered markdown report. -/
def generate_project_overview (files : List FileInfo) (ps : ProjectStructure) : String :=
  let langTop := (sortByDesc (fun p => p.2) ps.languages).take 5
  let overview :=
    "# Project Analysis: " ++ ps.name ++ "\n\n" ++
    "## Project Statistics\n" ++
    "- **Total Files**: " ++ toString ps.total_files ++ "\n" ++
    "- **Total Lines of Code**: " ++ commaFormat ps.total_lines ++ "\n" ++
    "- **Primary Languages**: " ++
      joinWith ", " (langTop.map (fun p => p.1 ++ " (" ++ toString p.2 ++ " files)")) ++ "\n\n" ++
    "## Detected Frameworks & Technologies\n" ++
    (if ps.frameworks != [] then joinWith ", " ps.frameworks
     else "No specific frameworks detected") ++ "\n\n" ++
    "## Project Structure\n" ++
    "- **Entry Points**: " ++
      (if ps.entry_points != [] then joinWith ", " ps.entry_points
       else "Not clearly identified") ++ "\n" ++
    "- **Configuration Files**: " ++ toString ps.config_files.length ++
      " config files found\n" ++
    "- **Documentation Files**: " ++ toString ps.documentation.length ++
      " documentation files\n\n" ++
    "## Key Dependencies\n" ++
    (if ps.dependencies != [] then
      joinWith "\n" ((ps.dependencies.take 10).map (fun p => "- " ++ p.1))
     else "No dependencies file found") ++ "\n\n" ++
    "## Critical Files (High Complexity)\n"
  let critical := (sortByDesc (fun fi => fi.complexity_score)
    (files.filter (fun fi => fi.complexity_score > 30))).take 10
  critical.foldl (fun acc fi =>
    acc ++ "- **" ++ fi.path ++ "** (" ++ fi.language ++ ", " ++
      toString fi.lines ++ " lines, complexity: " ++ toString fi.complexity_score ++ ")\n" ++
    (if fi.key_patterns != [] then
      "  - Key patterns: " ++ joinWith ", " (fi.key_patterns.take 3) ++ "\n"
     else "")) overview

/-- One `api_endpoints` item: the tag with its category marker removed,
plus the source file and language. -/
def api_endpoint_of (fi : FileInfo) (p : String) : ApiEndpoint :=
  { endpoint := replaceAllStr p "API_ENDPOINT: " "", file := fi.path, language := fi.language }

/-- One `database_models` item. -/
def db_model_of (fi : FileInfo) (p : String) : DbModel :=
  { model := replaceAllStr p "DB_MODEL: " "", file := fi.path, language := fi.language }

/-- One `ui_components` item. -/
def ui_component_of (fi : FileInfo) (p : String) : UiComponent :=
  { component := replaceAllStr p "REACT_COMPONENT: " "", file := fi.path, language := fi.language }

/-- One `key_components` digest of a high-complexity record. -/
def key_component_of (fi : FileInfo) : KeyComponent :=
  { name := pathStem fi.path, path := fi.path, type := fi.language,
    complexity := fi.complexity_score, lines := fi.lines,
    classes := fi.classes.take 5, functions := fi.functions.take 10,
    key_patterns := fi.key_patterns.take 5 }

/-- Model of `create_resumable_context`: synthesize the resumable context from the
file records and the project structure; `now` is `datetime.now()`. -/
def create_resumable_context (files : List FileInfo) (ps : ProjectStructure)
    (now : String) : ResumableContext :=
  let api_endpoints := files.foldl (fun acc fi =>
    acc ++ (fi.key_patterns.filter (fun p => strStarts p "API_ENDPOINT:")).map
      (api_endpoint_of fi)) []
  let db_models := files.foldl (fun acc fi =>
    acc ++ (fi.key_patterns.filter (fun p => strStarts p "DB_MODEL:")).map
      (db_model_of fi)) []
  let ui_components := files.foldl (fun acc fi =>
    acc ++ (fi.key_patterns.filter (fun p => strStarts p "REACT_COMPONENT:")).map
      (ui_component_of fi)) []
  let critical := (sortByDesc (fun fi => fi.complexity_score)
    (files.filter (fun fi => fi.complexity_score > 25))).take 15
  let key_components := critical.map key_component_of
  let patterns :=
    (if files.any (fun fi => strContains (strLower fi.path) "models") then
      ["Model-View Architecture"] else []) ++
    (if files.any (fun fi => strContains (strLower fi.path) "controller") then
      ["MVC Pattern"] else []) ++
    (if files.any (fun fi => strContains (strLower fi.path) "service") then
      ["Service Layer Pattern"] else []) ++
    (if files.any (fun fi => strContains (strLower fi.path) "component") then
      ["Component-Based Architecture"] else [])
  { project_overview := generate_project_overview files ps,
    technical_stack := {
      languages := ps.languages,
      frameworks := ps.frameworks,
      dependencies := ps.dependencies.take 20 },
    architecture_patterns := patterns,
    key_components := key_components,
    api_endpoints := api_endpoints.take 20,
    database_models := db_models.take 15,
    ui_components := ui_components.take 20,
    external_services := (ps.dependencies.map (fun p => p.1)).filter
      (fun dep => ["api", "http", "request", "axios", "fetch"].any
        (fun w => strContains (strLower dep) w)),
    critical_files := ((files.filter (fun fi => fi.complexity_score > 40)).map
      (fun fi => fi.path)).take 10,
    analysis_timestamp := now,
    progress_markers := [("structure_analyzed", true), ("dependencies_extracted", true),
      ("patterns_identified", true), ("components_mapped", true)] }

/-! ## Repository scan (`analyze_repository`) -/

/-- Accumulated state of the scan loop. -/
structure ScanState where
  files : List FileInfo
  languages : List (String × Nat)
  total_lines : Nat
  frameworks : List String
  deriving Repr, DecidableEq

/-- One iteration of the scan loop: only entries whose lower-cased
extension is in the static table are analyzed; a produced record updates
the statistics and the framework set. -/
def analyze_step (root : String) (st : ScanState) (e : FSEntry) : ScanState :=
  if (code_extensions.find? (fun p => p.1 == strLower (pySuffix (entryName e)))).isSome then
    match analyze_file root e with
    | some fi =>
      { files := st.files ++ [fi],
        languages := bumpCount st.languages fi.language,
        total_lines := st.total_lines + fi.lines,
        frameworks := e.content.frameworks.foldl setAdd st.frameworks }
    | none => st
  else st

/-- Model of `analyze_repository`: scan every entry, build the `ProjectStructure`
and derive the `ResumableContext`. -/
def analyze_repository (fs : FS) (now : String) :
    List FileInfo × ProjectStructure × ResumableContext :=
  let st := fs.entries.foldl (analyze_step fs.root) ⟨[], [], 0, []⟩
  let ps : ProjectStructure := {
    name := fs.repoName,
    root_path := fs.root,
    total_files := st.files.length,
    total_lines := st.total_lines,
    languages := st.languages,
    frameworks := st.frameworks,
    dependencies := extract_dependencies fs,
    entry_points := find_entry_points fs,
    config_files := find_config_files fs,
    documentation := ((fs.entries.filter (fun e => globMatch "*.md" (entryName e))).map
      relStr).take 10 }
  (st.files, ps, create_resumable_context st.files ps now)

/-! ## Shared lemmas about the embedding -/

/-- The record built by the success branch of `analyze_file`. -/
def built_record (root : String) (e : FSEntry) : FileInfo :=
  let language := detect_language (pySuffix (entryName e))
  let ext := extract_for e.content language
  { path := relStr e,
    size := e.size,
    lines := e.content.newlines + 1,
    file_type := pySuffix (entryName e),
    language := language,
    imports := ext.1.take 20,
    classes := ext.2.1.take 20,
    functions := ext.2.2.take 20,
    exports := ext.2.2.take 20,
    key_patterns := (extract_key_patterns e.content language).take 10,
    complexity_score := calculate_complexity_score e.content,
    last_modified := e.mtime }

theorem analyze_file_some_iff (root : String) (e : FSEntry) (fi : FileInfo) :
    analyze_file root e = some fi ↔
      (should_ignore_path (pathStr root e) (entryName e) = false ∧ e.isFile = true ∧
       e.readOk = true ∧ fi = built_record root e) := by
  unfold analyze_file built_record
  constructor
  · intro h
    split at h
    · exact absurd h (by simp)
    · split at h
      · exact absurd h (by simp)
      · rename_i h1 h2
        simp only [Bool.or_eq_true, Bool.not_eq_true', not_or, Bool.not_eq_true,
          Bool.not_eq_false] at h1 h2
        exact ⟨h1.1, h1.2, h2, (Option.some_injective _ h).symm⟩
  · rintro ⟨h1, h2, h3, rfl⟩
    simp [h1, h2, h3]

/-- The per-entry record decision of the scan loop: only entries whose
lower-cased extension is a key of the static table are analyzed. -/
def scan_record (root : String) (e : FSEntry) : Option FileInfo :=
  if (code_extensions.find? (fun p => p.1 == strLower (pySuffix (entryName e)))).isSome then
    analyze_file root e
  else none

theorem scan_record_some {root : String} {e : FSEntry} {fi : FileInfo}
    (h : scan_record root e = some fi) :
    (code_extensions.find? (fun p => p.1 == strLower (pySuffix (entryName e)))).isSome = true ∧
    analyze_file root e = some fi := by
  unfold scan_record at h
  split at h
  · exact ⟨by assumption, h⟩
  · exact absurd h (by simp)

theorem scan_files_eq (root : String) (entries : List FSEntry) (st : ScanState) :
    (entries.foldl (analyze_step root) st).files =
      st.files ++ entries.filterMap (scan_record root) := by
  induction entries generalizing st with
  | nil => simp
  | cons e rest ih =>
    simp only [List.foldl_cons, List.filterMap_cons]
    by_cases hC : (code_extensions.find? (fun p => p.1 == strLower (pySuffix (entryName e)))).isSome
    · cases hfe : analyze_file root e with
      | none => simp [analyze_step, scan_record, hC, hfe, ih]
      | some fi => simp [analyze_step, scan_record, hC, hfe, ih]
    · simp [analyze_step, scan_record, hC, ih]

theorem analyze_repository_files (fs : FS) (now : String) :
    (analyze_repository fs now).1 = fs.entries.filterMap (scan_record fs.root) := by
  have h := scan_files_eq fs.root fs.entries ⟨[], [], 0, []⟩
  simpa [analyze_repository] using h

/-- Every produced record has as path the relative path of an entry that
passed the path filter; the filter is a function of that relative path. -/
theorem files_path_not_ignored {fs : FS} {now : String} {fi : FileInfo}
    (h : fi ∈ (analyze_repository fs now).1) :
    should_ignore_path (fs.root ++ "/" ++ fi.path) (lastComp fi.path) = false := by
  rw [analyze_repository_files] at h
  rcases List.mem_filterMap.mp h with ⟨e, _, hrec⟩
  rcases scan_record_some hrec with ⟨_, hfile⟩
  rcases (analyze_file_some_iff fs.root e fi).mp hfile with ⟨hig, _, _, rfl⟩
  exact hig

theorem foldl_add_two_mul (l : List Nat) (a : Nat) :
    l.foldl (fun s m => s + m * 2) a = a + 2 * l.sum := by
  induction l generalizing a with
  | nil => simp
  | cons x xs ih =>
    simp only [List.foldl_cons, List.sum_cons, ih]
    omega

theorem mem_foldl_append {β γ : Type} (g : γ → List β) (l : List γ) (init : List β) (a : β)
    (h : a ∈ l.foldl (fun acc x => acc ++ g x) init) : a ∈ init ∨ ∃ x ∈ l, a ∈ g x := by
  induction l generalizing init with
  | nil => exact Or.inl h
  | cons x rest ih =>
    simp only [List.foldl_cons] at h
    rcases ih (init ++ g x) h with h1 | h2
    · rcases List.mem_append.mp h1 with h3 | h4
      · exact Or.inl h3
      · exact Or.inr ⟨x, by simp, h4⟩
    · rcases h2 with ⟨y, hy, ha⟩
      exact Or.inr ⟨y, by simp [hy], ha⟩

theorem mem_foldl_append_if {γ : Type} (p : γ → Bool) (g : γ → String)
    (l : List γ) (acc : List String) (a : String)
    (h : a ∈ l.foldl (fun acc2 x => if p x then acc2 ++ [g x] else acc2) acc) :
    a ∈ acc ∨ ∃ x ∈ l, p x = true ∧ a = g x := by
  induction l generalizing acc with
  | nil => exact Or.inl h
  | cons x rest ih =>
    simp only [List.foldl_cons] at h
    by_cases hp : p x
    · rw [if_pos hp] at h
      rcases ih (acc ++ [g x]) h with h1 | h2
      · rcases List.mem_append.mp h1 with h3 | h4
        · exact Or.inl h3
        · exact Or.inr ⟨x, by simp, hp, by simpa using h4⟩
      · rcases h2 with ⟨y, hy, hpy, ha⟩
        exact Or.inr ⟨y, by simp [hy], hpy, ha⟩
    · rw [if_neg hp] at h
      rcases ih acc h with h1 | h2
      · exact Or.inl h1
      · rcases h2 with ⟨y, hy, hpy, ha⟩
        exact Or.inr ⟨y, by simp [hy], hpy, ha⟩

theorem mem_insertByGe {α : Type} {f : α → Nat} {x y : α} {l : List α}
    (h : y ∈ insertByGe f x l) : y = x ∨ y ∈ l := by
  induction l with
  | nil => simpa [insertByGe] using h
  | cons z zs ih =>
    unfold insertByGe at h
    split at h
    · simpa using h
    · rcases List.mem_cons.mp h with h1 | h2
      · exact Or.inr (by simp [h1])
      · rcases ih h2 with h3 | h4
        · exact Or.inl h3
        · exact Or.inr (by simp [h4])

theorem mem_sortByDesc {α : Type} {f : α → Nat} {y : α} {l : List α}
    (h : y ∈ sortByDesc f l) : y ∈ l := by
  induction l with
  | nil => simpa [sortByDesc] using h
  | cons z zs ih =>
    rcases mem_insertByGe (l := sortByDesc f zs) (by simpa [sortByDesc] using h) with h1 | h2
    · simp [h1]
    · simp [ih h2]

theorem mem_find_config_files (fs : FS) (x : String)
    (h : x ∈ find_config_files fs) :
    ∃ e ∈ fs.entries, x = relStr e ∧
      should_ignore_path (pathStr fs.root e) (entryName e) = false := by
  unfold find_config_files at h
  have step : ∀ (pats : List String) (acc : List String),
      x ∈ pats.foldl (fun acc pat =>
        fs.entries.foldl (fun acc2 e =>
          if globMatch pat (entryName e) &&
             !(should_ignore_path (pathStr fs.root e) (entryName e)) then
            acc2 ++ [relStr e]
          else acc2) acc) acc →
      x ∈ acc ∨ ∃ e ∈ fs.entries, x = relStr e ∧
        should_ignore_path (pathStr fs.root e) (entryName e) = false := by
    intro pats
    induction pats with
    | nil => exact fun acc h2 => Or.inl h2
    | cons pat rest ih =>
      intro acc h2
      simp only [List.foldl_cons] at h2
      rcases ih _ h2 with h3 | h4
      · rcases mem_foldl_append_if _ _ _ _ _ h3 with h5 | h6
        · exact Or.inl h5
        · rcases h6 with ⟨e, he, hc, hx⟩
          rw [Bool.and_eq_true, Bool.not_eq_true'] at hc
          exact Or.inr ⟨e, he, hx, hc.2⟩
      · exact Or.inr h4
  rcases step config_patterns [] h with h1 | h2
  · exact absurd h1 (by simp)
  · exact h2

theorem sum_bumpCount (d : List (String × Nat)) (k : String) :
    (((bumpCount d k).map (fun p => p.2)).sum) = ((d.map (fun p => p.2)).sum) + 1 := by
  induction d with
  | nil => simp [bumpCount]
  | cons p rest ih =>
    unfold bumpCount
    split
    · simp; omega
    · simp [ih]; omega

theorem scan_histogram (root : String) (entries : List FSEntry) (st : ScanState) :
    (((entries.foldl (analyze_step root) st).languages.map (fun p => p.2)).sum) +
      st.files.length =
    ((st.languages.map (fun p => p.2)).sum) +
      (entries.foldl (analyze_step root) st).files.length := by
  induction entries generalizing st with
  | nil => simp
  | cons e rest ih =>
    simp only [List.foldl_cons]
    by_cases hC : (code_extensions.find? (fun p => p.1 == strLower (pySuffix (entryName e)))).isSome
    · cases hfe : analyze_file root e with
      | none =>
        have : analyze_step root st e = st := by simp [analyze_step, hC, hfe]
        rw [this]
        exact ih st
      | some fi =>
        have h2 := ih (analyze_step root st e)
        have hfiles : (analyze_step root st e).files = st.files ++ [fi] := by
          simp [analyze_step, hC, hfe]
        have hlangs : (analyze_step root st e).languages =
            bumpCount st.languages fi.language := by
          simp [analyze_step, hC, hfe]
        rw [hfiles, hlangs, sum_bumpCount] at h2
        simp only [List.length_append, List.length_cons, List.length_nil] at h2
        omega
    · have hst : analyze_step root st e = st := by simp [analyze_step, hC]
      rw [hst]
      exact ih st

/-! ## Concrete inputs used by witnesses and counterexamples -/

def emptyContent : Content :=
  { newlines := 0, complexMatches := [], pyParse := some ⟨[], [], []⟩,
    jsImports := [], jsExports := [], jsFunctions := [],
    apiMatches := [], dbMatches := [], reactMatches := [],
    frameworks := [], textLines := [], jsonDeps := none }

/-! ## C4: complexity score formula, bounds and monotonicity -/

/-- C4: for every file content, `calculate_complexity_score` equals
`min(min(line_count // 10, 50) + 2 * total matches, 100)` with
`line_count = newlines + 1`; the score is at most 100 (and at least 0 as
a natural number), and holding the line count fixed it is monotonically
non-decreasing in the number of matched complexity patterns. -/
theorem complexity_score_formula :
    (∀ c : Content, calculate_complexity_score c =
      min (min ((c.newlines + 1) / 10) 50 + 2 * c.complexMatches.sum) 100) ∧
    (∀ c : Content, calculate_complexity_score c ≤ 100) ∧
    (∀ c1 c2 : Content, c1.newlines = c2.newlines →
      c1.complexMatches.sum ≤ c2.complexMatches.sum →
      calculate_complexity_score c1 ≤ calculate_complexity_score c2) := by
  have hf : ∀ c : Content, calculate_complexity_score c =
      min (min ((c.newlines + 1) / 10) 50 + 2 * c.complexMatches.sum) 100 := by
    intro c
    unfold calculate_complexity_score
    dsimp only
    rw [foldl_add_two_mul]
  refine ⟨hf, fun c => ?_, fun c1 c2 h1 h2 => ?_⟩
  · rw [hf]
    exact Nat.min_le_right _ _
  · rw [hf, hf, h1]
    have hmul : 2 * c1.complexMatches.sum ≤ 2 * c2.complexMatches.sum := by omega
    exact min_le_min (Nat.add_le_add_left hmul _) le_rfl

def w4c1 : Content := { emptyContent with newlines := 409, complexMatches := [1, 2] }

def w4c2 : Content := { emptyContent with newlines := 409, complexMatches := [5] }

/-- C4 witness at a concrete pair of contents. -/
theorem complexity_score_formula_witness :
    calculate_complexity_score w4c1 ≤ calculate_complexity_score w4c2 :=
  complexity_score_formula.2.2 w4c1 w4c2 (by rfl) (by decide)

/-! ## C7: requirements-manifest dependency extraction -/

def w7req : FSEntry :=
  { relPath := ["requirements.txt"], isFile := true, readOk := true,
    size := 1, mtime := "m",
    content := { emptyContent with textLines := ["flask==2.0.1", "# comment", ""] } }

def w7fs : FS := { root := "/repo", repoName := "repo", entries := [w7req] }

/-- C7: the requirements line `flask==2.0.1` yields the entry
`pip:flask ↦ flask==2.0.1`; a `#` comment line and a blank line yield no
entry; on the manifest holding exactly those three lines,
`extract_dependencies` produces exactly that one entry; and every line
that is blank or a comment after stripping yields no entry. -/
theorem requirements_line_mapping :
    requirements_entry "flask==2.0.1" = some ("pip:flask", "flask==2.0.1") ∧
    requirements_entry "# comment" = none ∧
    requirements_entry "" = none ∧
    extract_dependencies w7fs = [("pip:flask", "flask==2.0.1")] ∧
    (∀ line : String, pyStrip line = "" ∨ strStarts (pyStrip line) "#" = true →
      requirements_entry line = none) := by
  refine ⟨by decide, by decide, by decide, by decide, ?_⟩
  intro line h
  unfold requirements_entry
  rcases h with h | h
  · simp [h]
  · simp [h]

/-- C7 witness: a whitespace-only line contributes no entry. -/
theorem requirements_line_mapping_witness :
    requirements_entry "   " = none :=
  requirements_line_mapping.2.2.2.2 "   " (Or.inl (by decide))

/-! ## C3: determinism up to the embedded timestamp -/

/-- A `ResumableContext` with its `analysis_timestamp` field cleared. -/
def withoutTimestamp (c : ResumableContext) : ResumableContext :=
  { c with analysis_timestamp := "" }

/-- C3: two runs of the pipeline over the same tree agree on the file
records, the `ProjectStructure`, and the `ResumableContext` up to the
embedded timestamp; `create_resumable_context` is a pure function of the
file records and the project structure, its timestamp argument affecting
only the `analysis_timestamp` field. -/
theorem pipeline_deterministic :
    ∀ (fs : FS) (t1 t2 : String),
      (analyze_repository fs t1).1 = (analyze_repository fs t2).1 ∧
      (analyze_repository fs t1).2.1 = (analyze_repository fs t2).2.1 ∧
      withoutTimestamp (analyze_repository fs t1).2.2 =
        withoutTimestamp (analyze_repository fs t2).2.2 ∧
      (∀ (files : List FileInfo) (ps : ProjectStructure) (ta tb : String),
        withoutTimestamp (create_resumable_context files ps ta) =
          withoutTimestamp (create_resumable_context files ps tb)) :=
  fun _ _ _ => ⟨rfl, rfl, rfl, fun _ _ _ _ => rfl⟩

/-! ## C1: the `critical_files` selection -/

/-- The reading of `critical_files` asserted by the claim (follows the words of the spec,
for comparison with what `create_resumable_context` computes): records
above the threshold, sorted by complexity score descending, first 10,
path only. -/
def critical_files_claimed (files : List FileInfo) : List String :=
  ((sortByDesc (fun fi => fi.complexity_score)
    (files.filter (fun fi => fi.complexity_score > 40))).map (fun fi => fi.path)).take 10

def cx1entA : FSEntry :=
  { relPath := ["a.py"], isFile := true, readOk := true, size := 100, mtime := "m",
    content := { emptyContent with newlines := 409 } }

def cx1entB : FSEntry :=
  { relPath := ["b.py"], isFile := true, readOk := true, size := 100, mtime := "m",
    content := { emptyContent with newlines := 989 } }

def cx1fs : FS := { root := "/repo", repoName := "repo", entries := [cx1entA, cx1entB] }

/-- C1 counterexample: on a tree holding `a.py` (score 41) before `b.py`
(score 50), the produced `critical_files` is `["a.py", "b.py"]` — the
traversal order — while the claimed descending sort would give
`["b.py", "a.py"]`: the code never sorts this field. -/
theorem critical_files_not_sorted_cx :
    (analyze_repository cx1fs "t").2.2.critical_files = ["a.py", "b.py"] ∧
    critical_files_claimed (analyze_repository cx1fs "t").1 = ["b.py", "a.py"] ∧
    (analyze_repository cx1fs "t").2.2.critical_files ≠
      critical_files_claimed (analyze_repository cx1fs "t").1 := by
  refine ⟨by decide, by decide, by decide⟩

/-- C1 (amended): `critical_files` contains exactly the paths of the
records with `complexity_score > 40`, in file-record list order (it is
not sorted), truncated to the first 10, paths only. -/
theorem critical_files_unsorted :
    ∀ (files : List FileInfo) (ps : ProjectStructure) (now : String),
      (create_resumable_context files ps now).critical_files =
        ((files.filter (fun fi => fi.complexity_score > 40)).map
          (fun fi => fi.path)).take 10 ∧
      (create_resumable_context files ps now).critical_files.length ≤ 10 ∧
      (∀ p, p ∈ (create_resumable_context files ps now).critical_files →
        ∃ fi ∈ files, fi.path = p ∧ fi.complexity_score > 40) := by
  intro files ps now
  have h : (create_resumable_context files ps now).critical_files =
      ((files.filter (fun fi => fi.complexity_score > 40)).map
        (fun fi => fi.path)).take 10 := rfl
  refine ⟨h, ?_, ?_⟩
  · rw [h]
    exact List.length_take_le _ _
  · intro p hp
    rw [h] at hp
    have hp2 := List.take_subset _ _ hp
    rcases List.mem_map.mp hp2 with ⟨fi, hfi, rfl⟩
    rcases List.mem_filter.mp hfi with ⟨hmem, hsc⟩
    exact ⟨fi, hmem, rfl, by simpa using hsc⟩

def w1fi : FileInfo :=
  { path := "w.py", size := 1, lines := 500, file_type := ".py", language := "python",
    imports := [], classes := [], functions := [], exports := [], key_patterns := [],
    complexity_score := 50, last_modified := "m" }

def w1ps : ProjectStructure :=
  { name := "r", root_path := "/repo", total_files := 1, total_lines := 500,
    languages := [("python", 1)], frameworks := [], dependencies := [],
    entry_points := [], config_files := [], documentation := [] }

/-- C1 witness at a concrete record list. -/
theorem critical_files_unsorted_witness :
    ∃ fi ∈ [w1fi], fi.path = "w.py" ∧ fi.complexity_score > 40 :=
  (critical_files_unsorted [w1fi] w1ps "t").2.2 "w.py" (by decide)

/-! ## C6: the language histogram sums to the file count -/

/-- C6: in every run, the values of the language histogram sum exactly
to `total_files`, which is the number of produced file records. -/
theorem language_histogram_sums :
    ∀ (fs : FS) (now : String),
      (((analyze_repository fs now).2.1.languages.map (fun p => p.2)).sum) =
        (analyze_repository fs now).2.1.total_files ∧
      (analyze_repository fs now).2.1.total_files =
        (analyze_repository fs now).1.length := by
  intro fs now
  have h := scan_histogram fs.root fs.entries ⟨[], [], 0, []⟩
  refine ⟨?_, rfl⟩
  have h1 : (analyze_repository fs now).2.1.languages =
      (fs.entries.foldl (analyze_step fs.root) ⟨[], [], 0, []⟩).languages := rfl
  have h2 : (analyze_repository fs now).2.1.total_files =
      (fs.entries.foldl (analyze_step fs.root) ⟨[], [], 0, []⟩).files.length := rfl
  rw [h1, h2]
  simpa using h

/-! ## C5: truncation laws -/

/-- C5: every produced record stores the first 20 imports, classes and
functions and the first 10 key patterns of the untruncated extraction
(in extraction order, dropping the tail), so the bounds
`len(imports) ≤ 20`, `len(classes) ≤ 20`, `len(functions) ≤ 20`,
`len(key_patterns) ≤ 10` hold; and every `ResumableContext` has at most
15 key components and at most 10 critical files. -/
theorem truncation_laws :
    (∀ (root : String) (e : FSEntry) (fi : FileInfo), analyze_file root e = some fi →
      fi.imports = (extract_for e.content fi.language).1.take 20 ∧
      fi.classes = (extract_for e.content fi.language).2.1.take 20 ∧
      fi.functions = (extract_for e.content fi.language).2.2.take 20 ∧
      fi.key_patterns = (extract_key_patterns e.content fi.language).take 10 ∧
      fi.imports.length ≤ 20 ∧ fi.classes.length ≤ 20 ∧
      fi.functions.length ≤ 20 ∧ fi.key_patterns.length ≤ 10) ∧
    (∀ (files : List FileInfo) (ps : ProjectStructure) (now : String),
      (create_resumable_context files ps now).key_components.length ≤ 15 ∧
      (create_resumable_context files ps now).critical_files.length ≤ 10) := by
  constructor
  · intro root e fi h
    rcases (analyze_file_some_iff root e fi).mp h with ⟨_, _, _, rfl⟩
    refine ⟨rfl, rfl, rfl, rfl, ?_, ?_, ?_, ?_⟩
    · exact List.length_take_le _ _
    · exact List.length_take_le _ _
    · exact List.length_take_le _ _
    · exact List.length_take_le _ _
  · intro files ps now
    constructor
    · have h : (create_resumable_context files ps now).key_components =
          ((sortByDesc (fun fi => fi.complexity_score)
            (files.filter (fun fi => fi.complexity_score > 25))).take 15).map
            key_component_of := rfl
      rw [h, List.length_map]
      exact List.length_take_le _ _
    · rw [show (create_resumable_context files ps now).critical_files =
        ((files.filter (fun fi => fi.complexity_score > 40)).map
          (fun fi => fi.path)).take 10 from rfl]
      exact List.length_take_le _ _

def w5e : FSEntry :=
  { relPath := ["w5.py"], isFile := true, readOk := true, size := 4, mtime := "m",
    content := { emptyContent with newlines := 9 } }

def w5fi : FileInfo :=
  { path := "w5.py", size := 4, lines := 10, file_type := ".py", language := "python",
    imports := [], classes := [], functions := [], exports := [], key_patterns := [],
    complexity_score := 1, last_modified := "m" }

/-- C5 witness at a concrete record. -/
theorem truncation_laws_witness :
    w5fi.key_patterns.length ≤ 10 :=
  (truncation_laws.1 "/repo" w5e w5fi (by decide)).2.2.2.2.2.2.2

/-! ## C9: the exports field mirrors the functions field -/

/-- C9: every produced record stores the same list in `exports` as in
`functions`; for a JavaScript-family record, the names the export-idiom
regexes returned are bound to the `classes` field (the second component
of `extract_javascript_info`), and `functions`/`exports` hold the
function-idiom names. -/
theorem exports_equal_functions :
    ∀ (root : String) (e : FSEntry) (fi : FileInfo), analyze_file root e = some fi →
      fi.exports = fi.functions ∧
      ((fi.language = "javascript" ∨ fi.language = "typescript" ∨ fi.language = "react") →
        fi.classes = e.content.jsExports.take 20 ∧
        fi.functions = e.content.jsFunctions.take 20 ∧
        fi.exports = e.content.jsFunctions.take 20) := by
  intro root e fi h
  rcases (analyze_file_some_iff root e fi).mp h with ⟨_, _, _, rfl⟩
  refine ⟨rfl, ?_⟩
  intro hl
  have hL : detect_language (pySuffix (entryName e)) = "javascript" ∨
      detect_language (pySuffix (entryName e)) = "typescript" ∨
      detect_language (pySuffix (entryName e)) = "react" := hl
  have hext : extract_for e.content (detect_language (pySuffix (entryName e))) =
      extract_javascript_info e.content := by
    unfold extract_for
    rcases hL with h2 | h2 | h2 <;> rw [h2] <;> rfl
  refine ⟨?_, ?_, ?_⟩
  · show (extract_for e.content (detect_language (pySuffix (entryName e)))).2.1.take 20 =
      e.content.jsExports.take 20
    rw [hext]
    rfl
  · show (extract_for e.content (detect_language (pySuffix (entryName e)))).2.2.take 20 =
      e.content.jsFunctions.take 20
    rw [hext]
    rfl
  · show (extract_for e.content (detect_language (pySuffix (entryName e)))).2.2.take 20 =
      e.content.jsFunctions.take 20
    rw [hext]
    rfl

def w9c : Content :=
  { emptyContent with jsImports := ["react"], jsExports := ["A"], jsFunctions := ["f", "g"] }

def w9e : FSEntry :=
  { relPath := ["x.js"], isFile := true, readOk := true, size := 7, mtime := "m",
    content := w9c }

def w9fi : FileInfo :=
  { path := "x.js", size := 7, lines := 1, file_type := ".js", language := "javascript",
    imports := ["react"], classes := ["A"], functions := ["f", "g"],
    exports := ["f", "g"], key_patterns := [], complexity_score := 0,
    last_modified := "m" }

/-- C9 witness at a concrete JavaScript record. -/
theorem exports_equal_functions_witness :
    w9fi.classes = w9e.content.jsExports.take 20 :=
  ((exports_equal_functions "/repo" w9e w9fi (by decide)).2 (Or.inl (by decide))).1

/-! ## C10: declared language always comes from the extension table -/

/-- C10: an entry is analyzed only when its lower-cased extension is a
key of the static table, so the language of every produced record is a value
of that table and is never the generic `"text"` fallback. -/
theorem declared_language_from_table :
    ∀ (fs : FS) (now : String) (fi : FileInfo), fi ∈ (analyze_repository fs now).1 →
      fi.language ∈ code_extensions.map (fun p => p.2) ∧ fi.language ≠ "text" := by
  intro fs now fi hfi
  rw [analyze_repository_files] at hfi
  rcases List.mem_filterMap.mp hfi with ⟨e, _, hrec⟩
  rcases scan_record_some hrec with ⟨hfind, hfile⟩
  rcases (analyze_file_some_iff fs.root e fi).mp hfile with ⟨_, _, _, rfl⟩
  have hlang : (built_record fs.root e).language =
      detect_language (pySuffix (entryName e)) := rfl
  rcases Option.isSome_iff_exists.mp hfind with ⟨p, hp⟩
  have hdl : detect_language (pySuffix (entryName e)) = p.2 := by
    unfold detect_language
    rw [hp]
  have hmem := List.mem_of_find?_eq_some hp
  constructor
  · rw [hlang, hdl]
    exact List.mem_map.mpr ⟨p, hmem, rfl⟩
  · rw [hlang, hdl]
    intro htext
    have hbad : ("text" : String) ∈ code_extensions.map (fun p => p.2) :=
      List.mem_map.mpr ⟨p, hmem, htext⟩
    exact absurd hbad (by decide)

def w10e : FSEntry :=
  { relPath := ["a.py"], isFile := true, readOk := true, size := 3, mtime := "m",
    content := { emptyContent with newlines := 409 } }

def w10fs : FS := { root := "/repo", repoName := "repo", entries := [w10e] }

def w10fi : FileInfo :=
  { path := "a.py", size := 3, lines := 410, file_type := ".py", language := "python",
    imports := [], classes := [], functions := [], exports := [], key_patterns := [],
    complexity_score := 41, last_modified := "m" }

/-- C10 witness at a concrete run. -/
theorem declared_language_from_table_witness :
    w10fi.language ≠ "text" :=
  (declared_language_from_table w10fs "t" w10fi (by decide)).2

/-! ## C8: Tier-A parse failure degrades gracefully -/

/-- C8: a Python file whose parse fails (`pyParse = none`) and that
passes the filter still yields a record, with empty imports, classes and
functions; the scan includes it and continues over the remaining entries
unchanged (the record list of a traversal splits around it), and every
record list of every run is exactly the per-entry `filterMap` of the scan. -/
theorem parse_failure_recovered :
    ∀ (root : String) (e : FSEntry),
      strLower (pySuffix (entryName e)) = ".py" →
      e.content.pyParse = none →
      should_ignore_path (pathStr root e) (entryName e) = false →
      e.isFile = true → e.readOk = true →
      analyze_file root e = some (built_record root e) ∧
      (built_record root e).imports = [] ∧
      (built_record root e).classes = [] ∧
      (built_record root e).functions = [] ∧
      scan_record root e = some (built_record root e) ∧
      (∀ pre post : List FSEntry,
        (pre ++ e :: post).filterMap (scan_record root) =
          pre.filterMap (scan_record root) ++
            built_record root e :: post.filterMap (scan_record root)) ∧
      (∀ (fs : FS) (now : String),
        (analyze_repository fs now).1 = fs.entries.filterMap (scan_record fs.root)) := by
  intro root e hsuf hparse hig hfile hread
  have hafile : analyze_file root e = some (built_record root e) :=
    (analyze_file_some_iff root e _).mpr ⟨hig, hfile, hread, rfl⟩
  have hfind : (code_extensions.find?
      (fun p => p.1 == strLower (pySuffix (entryName e)))).isSome = true := by
    rw [hsuf]
    rfl
  have hscan : scan_record root e = some (built_record root e) := by
    unfold scan_record
    rw [if_pos hfind]
    exact hafile
  have hlang : detect_language (pySuffix (entryName e)) = "python" := by
    unfold detect_language
    rw [hsuf]
    rfl
  have hext : extract_for e.content (detect_language (pySuffix (entryName e))) =
      ([], [], []) := by
    rw [hlang]
    simp [extract_for, extract_python_info, hparse]
  refine ⟨hafile, ?_, ?_, ?_, hscan, ?_, fun fs now => analyze_repository_files fs now⟩
  · show (extract_for e.content (detect_language (pySuffix (entryName e)))).1.take 20 = []
    rw [hext]
    rfl
  · show (extract_for e.content (detect_language (pySuffix (entryName e)))).2.1.take 20 = []
    rw [hext]
    rfl
  · show (extract_for e.content (detect_language (pySuffix (entryName e)))).2.2.take 20 = []
    rw [hext]
    rfl
  · intro pre post
    rw [List.filterMap_append, List.filterMap_cons, hscan]

def w8e : FSEntry :=
  { relPath := ["bad.py"], isFile := true, readOk := true, size := 3, mtime := "m",
    content := { emptyContent with pyParse := none } }

/-- C8 witness: the concrete unparsable file still yields a record. -/
theorem parse_failure_recovered_witness :
    analyze_file "/repo" w8e = some (built_record "/repo" w8e) ∧
    (built_record "/repo" w8e).imports = [] :=
  ⟨(parse_failure_recovered "/repo" w8e (by decide) (by rfl) (by decide)
      (by rfl) (by rfl)).1,
   (parse_failure_recovered "/repo" w8e (by decide) (by rfl) (by decide)
      (by rfl) (by rfl)).2.1⟩

/-! ## C2: what the path filter actually keeps out -/

theorem mem_tagged_fold {β : Type} (files : List FileInfo) (g : FileInfo → List β)
    (fileOf : β → String) (hg : ∀ fi a, a ∈ g fi → fileOf a = fi.path) (a : β)
    (h : a ∈ files.foldl (fun acc fi => acc ++ g fi) []) :
    ∃ fi ∈ files, fileOf a = fi.path := by
  rcases mem_foldl_append g files [] a h with h1 | h2
  · exact absurd h1 (by simp)
  · rcases h2 with ⟨fi, hfi, ha⟩
    exact ⟨fi, hfi, hg fi a ha⟩

def cx2md : FSEntry :=
  { relPath := ["node_modules", "readme.md"], isFile := true, readOk := true,
    size := 5, mtime := "m", content := emptyContent }

def cx2fs : FS := { root := "/repo", repoName := "repo", entries := [cx2md] }

def cx2main : FSEntry :=
  { relPath := ["main.py"], isFile := true, readOk := true,
    size := 5, mtime := "m", content := emptyContent }

def cx2fsB : FS := { root := "/work/bin", repoName := "bin", entries := [cx2main] }

/-- C2 counterexample: `node_modules/readme.md` is rejected by the path
filter, yet the run lists it in `ProjectStructure.documentation` (the
`*.md` search is unfiltered); likewise, under the root `/work/bin` every
path is rejected (`bin` is an ignore substring), yet `main.py` is listed
in `entry_points` (the existence probe is unfiltered). -/
theorem rejected_path_in_artifacts_cx :
    should_ignore_path (pathStr cx2fs.root cx2md) (entryName cx2md) = true ∧
    relStr cx2md ∈ (analyze_repository cx2fs "t").2.1.documentation ∧
    should_ignore_path (pathStr cx2fsB.root cx2main) (entryName cx2main) = true ∧
    relStr cx2main ∈ (analyze_repository cx2fsB "t").2.1.entry_points := by
  refine ⟨by decide, by decide, by decide, by decide⟩

/-- C2 (amended): for every entry rejected by the path filter, no record
is produced and the path of the entry is absent from the file-record list,
from `config_files`, and from every path field of the
`ResumableContext` (`critical_files`, `key_components`, `api_endpoints`,
`database_models`, `ui_components`); `documentation` and `entry_points`
are not filtered and can still mention rejected paths. -/
theorem rejected_path_absent :
    ∀ (fs : FS) (now : String) (e : FSEntry), e ∈ fs.entries →
      should_ignore_path (pathStr fs.root e) (entryName e) = true →
      analyze_file fs.root e = none ∧
      relStr e ∉ (analyze_repository fs now).1.map (fun fi => fi.path) ∧
      relStr e ∉ (analyze_repository fs now).2.1.config_files ∧
      relStr e ∉ (analyze_repository fs now).2.2.critical_files ∧
      relStr e ∉ (analyze_repository fs now).2.2.key_components.map (fun k => k.path) ∧
      relStr e ∉ (analyze_repository fs now).2.2.api_endpoints.map (fun a => a.file) ∧
      relStr e ∉ (analyze_repository fs now).2.2.database_models.map (fun d => d.file) ∧
      relStr e ∉ (analyze_repository fs now).2.2.ui_components.map (fun u => u.file) := by
  intro fs now e _ hig
  have hcore : ∀ fi : FileInfo, fi ∈ (analyze_repository fs now).1 →
      fi.path ≠ relStr e := by
    intro fi hfi heq
    have h2 := files_path_not_ignored hfi
    rw [heq] at h2
    rw [show pathStr fs.root e = fs.root ++ "/" ++ relStr e from rfl,
        show entryName e = lastComp (relStr e) from rfl, h2] at hig
    exact absurd hig (by simp)
  have hfiles : ∀ x, x ∈ (analyze_repository fs now).1.map (fun fi => fi.path) →
      x ≠ relStr e := by
    intro x hx
    rcases List.mem_map.mp hx with ⟨fi, hfi, rfl⟩
    exact hcore fi hfi
  refine ⟨?_, ?_, ?_, ?_, ?_, ?_, ?_, ?_⟩
  · unfold analyze_file
    rw [hig]
    simp
  · intro hmem
    exact hfiles _ hmem rfl
  · intro hcfg
    have hcfg2 : relStr e ∈ find_config_files fs := hcfg
    rcases mem_find_config_files fs (relStr e) hcfg2 with ⟨e2, _, hxeq, hnig⟩
    rw [show pathStr fs.root e2 = fs.root ++ "/" ++ relStr e2 from rfl,
        show entryName e2 = lastComp (relStr e2) from rfl, ← hxeq] at hnig
    rw [show pathStr fs.root e = fs.root ++ "/" ++ relStr e from rfl,
        show entryName e = lastComp (relStr e) from rfl, hnig] at hig
    exact absurd hig (by simp)
  · intro hcrit
    have h3 : (analyze_repository fs now).2.2.critical_files =
        (((analyze_repository fs now).1.filter
          (fun fi => fi.complexity_score > 40)).map (fun fi => fi.path)).take 10 := rfl
    rw [h3] at hcrit
    have h4 := List.take_subset _ _ hcrit
    rcases List.mem_map.mp h4 with ⟨fi, hfi, hpath⟩
    exact hcore fi (List.mem_filter.mp hfi).1 hpath
  · intro hkc
    have h3 : (analyze_repository fs now).2.2.key_components =
        ((sortByDesc (fun fi => fi.complexity_score)
          ((analyze_repository fs now).1.filter
            (fun fi => fi.complexity_score > 25))).take 15).map key_component_of := rfl
    rw [h3] at hkc
    rcases List.mem_map.mp hkc with ⟨k, hk, hkpath⟩
    rcases List.mem_map.mp hk with ⟨fi, hfi, rfl⟩
    have hfi2 := mem_sortByDesc (List.take_subset _ _ hfi)
    have hfi3 := (List.mem_filter.mp hfi2).1
    exact hcore fi hfi3 (by simpa [key_component_of] using hkpath)
  · intro hep
    have h3 : (analyze_repository fs now).2.2.api_endpoints =
        ((analyze_repository fs now).1.foldl (fun acc fi =>
          acc ++ (fi.key_patterns.filter (fun p => strStarts p "API_ENDPOINT:")).map
            (api_endpoint_of fi)) []).take 20 := rfl
    rw [h3] at hep
    rcases List.mem_map.mp hep with ⟨a, ha, hafile⟩
    have ha2 := List.take_subset _ _ ha
    have hg : ∀ (fi : FileInfo) a2,
        a2 ∈ (fi.key_patterns.filter (fun p => strStarts p "API_ENDPOINT:")).map
          (api_endpoint_of fi) → (fun a => a.file) a2 = fi.path := by
      intro fi a2 ha3
      rcases List.mem_map.mp ha3 with ⟨p, _, rfl⟩
      rfl
    rcases mem_tagged_fold _ _ (fun a => a.file) hg a ha2 with ⟨fi, hfi, hfa⟩
    exact hcore fi hfi (by rw [← hfa, hafile])
  · intro hdb
    have h3 : (analyze_repository fs now).2.2.database_models =
        ((analyze_repository fs now).1.foldl (fun acc fi =>
          acc ++ (fi.key_patterns.filter (fun p => strStarts p "DB_MODEL:")).map
            (db_model_of fi)) []).take 15 := rfl
    rw [h3] at hdb
    rcases List.mem_map.mp hdb with ⟨a, ha, hafile⟩
    have ha2 := List.take_subset _ _ ha
    have hg : ∀ (fi : FileInfo) a2,
        a2 ∈ (fi.key_patterns.filter (fun p => strStarts p "DB_MODEL:")).map
          (db_model_of fi) → (fun d => d.file) a2 = fi.path := by
      intro fi a2 ha3
      rcases List.mem_map.mp ha3 with ⟨p, _, rfl⟩
      rfl
    rcases mem_tagged_fold _ _ (fun d => d.file) hg a ha2 with ⟨fi, hfi, hfa⟩
    exact hcore fi hfi (by rw [← hfa, hafile])
  · intro hui
    have h3 : (analyze_repository fs now).2.2.ui_components =
        ((analyze_repository fs now).1.foldl (fun acc fi =>
          acc ++ (fi.key_patterns.filter (fun p => strStarts p "REACT_COMPONENT:")).map
            (ui_component_of fi)) []).take 20 := rfl
    rw [h3] at hui
    rcases List.mem_map.mp hui with ⟨a, ha, hafile⟩
    have ha2 := List.take_subset _ _ ha
    have hg : ∀ (fi : FileInfo) a2,
        a2 ∈ (fi.key_patterns.filter (fun p => strStarts p "REACT_COMPONENT:")).map
          (ui_component_of fi) → (fun u => u.file) a2 = fi.path := by
      intro fi a2 ha3
      rcases List.mem_map.mp ha3 with ⟨p, _, rfl⟩
      rfl
    rcases mem_tagged_fold _ _ (fun u => u.file) hg a ha2 with ⟨fi, hfi, hfa⟩
    exact hcore fi hfi (by rw [← hfa, hafile])

/-- C2 witness at the concrete rejected entry. -/
theorem rejected_path_absent_witness :
    analyze_file cx2fs.root cx2md = none :=
  (rejected_path_absent cx2fs "t" cx2md (by decide) (by decide)).1
